import Mathlib

/-!
Shallow embedding of the logops logging library (src/lib/logops.js and
src/lib/formatters.js) and proofs about its argument-resolution,
level-gating, context-merging and formatting pipeline.

JavaScript runtime values are modelled by the inductive type `JsVal`.
Contexts (plain JS objects used as key/value maps) are modelled as
association lists `Ctx := List (String × JsVal)`; JS guarantees that an
object has no duplicated property key, which appears below as `Nodup`
hypotheses on the key list where a proof needs it.  Behaviour of external
Node builtins (`util.format`, `util.inspect`, `Date` rendering,
`JSON.stringify`, the `serr` and `safe-json-stringify` packages, `chalk`)
is modelled faithfully to the extent exercised by the repository's own
test expectations (src/unnamed/part_000); leaf renderings no claim depends
on (exact `util.inspect` text for nested objects, JSON string escaping of
control characters, `Date.prototype.toString`) are modelled by simple
total functions and documented at their definition.
-/

set_option maxRecDepth 100000

namespace Logops

/-- Model of a JavaScript runtime value, covering every shape the logops
pipeline inspects: primitives, arrays, plain objects, `Error` and `Date`
instances, functions, and a marker `circular` standing for a value whose
JSON serialization throws (a circular structure). -/
inductive JsVal : Type where
  | undefined : JsVal
  | null : JsVal
  | bool (b : Bool) : JsVal
  | num (n : Int) : JsVal
  | str (s : String) : JsVal
  | arr (xs : List JsVal) : JsVal
  | obj (fields : List (String × JsVal)) : JsVal
  | error (name message : String) : JsVal
  | date (ms : Int) : JsVal
  | func (id : Nat) : JsVal
  | circular : JsVal

/-- An `Error` instance as carried through the pipeline's `err` slot
(`logWrap` only ever places `arguments[0] instanceof Error` there, so the
name/message pair is all the formatters consume; embedded errors carry no
stack, which `serr` must tolerate per the graceful-degradation contract). -/
structure JsErr where
  name : String
  message : String

/-- A JS object used as a context map: an association list of properties
in insertion order (the order `for..in` and `Object.keys` observe). -/
abbrev Ctx := List (String × JsVal)

/-- Property keys of an object, in insertion order (`Object.keys`). -/
def keysOf (l : Ctx) : List String := l.map Prod.fst

/-- Property read `l[k]`: first entry with key `k` (keys are unique in a
real JS object). -/
def lookupK (k : String) : Ctx → Option JsVal
  | [] => none
  | (k', v) :: rest => if k' = k then some v else lookupK k rest

/-- Property assignment `l[k] = v`: updates the entry in place when the
key exists (JS keeps the original insertion position), appends otherwise. -/
def setField : Ctx → String → JsVal → Ctx
  | [], k, v => [(k, v)]
  | (k', v') :: rest, k, v =>
      if k' = k then (k, v) :: rest else (k', v') :: setField rest k v

/-- One `for (attrname in src) res[attrname] = src[attrname]` copy loop. -/
def assignAll (res : Ctx) (src : Ctx) : Ctx :=
  src.foldl (fun r kv => setField r kv.1 kv.2) res

/-- `merge(obj1, obj2)` from src/lib/logops.js lines 266-276: builds a new
object, copies `obj1`'s properties, then `obj2`'s (so `obj2` wins on a
common key).  Both inputs are only read, never written. -/
def merge (obj1 obj2 : Ctx) : Ctx :=
  assignAll (assignAll [] obj1) obj2

/-- JS truthiness test (`if (v)`); `NaN` is not modelled. -/
def jsTruthy : JsVal → Bool
  | .undefined => false
  | .null => false
  | .bool b => b
  | .num n => n != 0
  | .str s => s ≠ ""
  | _ => true

/-- JS falsiness (`!v`, or the `||` default trigger). -/
def jsFalsy (v : JsVal) : Bool := !jsTruthy v

/-- `v == null` (abstract equality with null: true for `null`/`undefined`). -/
def jsIsNullish : JsVal → Bool
  | .undefined => true
  | .null => true
  | _ => false

/-- `typeof v === 'object'` (`null`, arrays, plain objects, `Error`s and
`Date`s are all `'object'`; functions are `'function'`). -/
def typeofIsObject : JsVal → Bool
  | .null => true
  | .arr _ => true
  | .obj _ => true
  | .error _ _ => true
  | .date _ => true
  | .circular => true
  | _ => false

/-- `Array.isArray(v)`. -/
def isArrayV : JsVal → Bool
  | .arr _ => true
  | _ => false

/-- `v instanceof Error`. -/
def isErrorV : JsVal → Bool
  | .error _ _ => true
  | _ => false

/-- Two-digit zero padding for date fields. -/
def pad2 (n : Nat) : String :=
  if n < 10 then "0" ++ toString n else toString n

/-- Three-digit zero padding for milliseconds. -/
def pad3 (n : Nat) : String :=
  if n < 10 then "00" ++ toString n
  else if n < 100 then "0" ++ toString n
  else toString n

/-- Four-digit zero padding for years. -/
def pad4 (n : Nat) : String :=
  if n < 10 then "000" ++ toString n
  else if n < 100 then "00" ++ toString n
  else if n < 1000 then "0" ++ toString n
  else toString n

/-- Year rendering (years before 1 CE rendered with their sign; no claim
exercises them). -/
def pad4i (y : Int) : String :=
  if y < 0 then toString y else pad4 y.toNat

/-- `Date.prototype.toISOString` for a date holding `ms` milliseconds
since the Unix epoch (proleptic Gregorian civil-date algorithm). -/
def dateToISO (ms : Int) : String :=
  let days : Int := ms.ediv 86400000
  let rem : Nat := (ms.emod 86400000).toNat
  let z : Int := days + 719468
  let era : Int := z.ediv 146097
  let doe : Nat := (z - era * 146097).toNat
  let yoe : Nat := (doe - doe / 1460 + doe / 36524 - doe / 146096) / 365
  let doy : Nat := doe - (365 * yoe + yoe / 4 - yoe / 100)
  let mp : Nat := (5 * doy + 2) / 153
  let d : Nat := doy - (153 * mp + 2) / 5 + 1
  let m : Nat := if mp < 10 then mp + 3 else mp - 9
  let y : Int := era * 400 + yoe + (if m ≤ 2 then 1 else 0)
  let hh := rem / 3600000
  let mi := rem % 3600000 / 60000
  let ss := rem % 60000 / 1000
  let mss := rem % 1000
  pad4i y ++ "-" ++ pad2 m ++ "-" ++ pad2 d ++ "T" ++ pad2 hh ++ ":" ++
    pad2 mi ++ ":" ++ pad2 ss ++ "." ++ pad3 mss ++ "Z"

/-- `Error.prototype.toString()`: name and message joined by `": "`, with
either part dropped when empty. -/
def errToStringNM (name message : String) : String :=
  if name = "" then message
  else if message = "" then name
  else name ++ ": " ++ message

/-- `String(err)` for the embedded error record. -/
def errToStr (e : JsErr) : String := errToStringNM e.name e.message

mutual

/-- JS string coercion `'' + v` / `String(v)`.  Arrays join their
elements with commas (`Array.prototype.toString`), objects render as
`[object Object]`.  A `Date` is rendered in ISO form in this model (the
exact `Date.prototype.toString` text is host-dependent and no claim
depends on it); a function value likewise gets a fixed token. -/
def jsToString : JsVal → String
  | .undefined => "undefined"
  | .null => "null"
  | .bool b => if b then "true" else "false"
  | .num n => toString n
  | .str s => s
  | .arr xs => arrJoin xs
  | .obj _ => "[object Object]"
  | .error n m => errToStringNM n m
  | .date ms => dateToISO ms
  | .func _ => "function"
  | .circular => "[object Object]"
termination_by structural v => v

def arrJoin : List JsVal → String
  | [] => ""
  | [x] => if jsIsNullish x then "" else jsToString x
  | x :: y :: xs =>
      (if jsIsNullish x then "" else jsToString x) ++ "," ++ arrJoin (y :: xs)
termination_by structural l => l

end

mutual

/-- Model of `util.inspect(v)` as used for extra `util.format` arguments
and for the dev formatter's trailing context.  The cases the repository's
tests pin down exactly are kept exact: numbers and booleans render
bare, an `Error` renders as `[Name: message]` and a small plain object as
`\x7b key: value \x7d` (the test `should log extra simple params` shows
`\x7b bar: 5 \x7d`).  Inspection text for nested/esoteric values is not
exercised by any claim. -/
def jsInspect : JsVal → String
  | .undefined => "undefined"
  | .null => "null"
  | .bool b => if b then "true" else "false"
  | .num n => toString n
  | .str s => "'" ++ s ++ "'"
  | .arr xs => "[ " ++ inspectList xs ++ " ]"
  | .obj [] => "\x7b\x7d"
  | .obj (f :: fs) => "\x7b " ++ inspectFields (f :: fs) ++ " \x7d"
  | .error n m => "[" ++ errToStringNM n m ++ "]"
  | .date ms => dateToISO ms
  | .func id => "[Function: " ++ toString id ++ "]"
  | .circular => "[Circular]"
termination_by structural v => v

def inspectList : List JsVal → String
  | [] => ""
  | [x] => jsInspect x
  | x :: y :: xs => jsInspect x ++ ", " ++ inspectList (y :: xs)
termination_by structural l => l

def inspectFields : List (String × JsVal) → String
  | [] => ""
  | [(k, v)] => k ++ ": " ++ jsInspect v
  | (k, v) :: f :: fs => k ++ ": " ++ jsInspect v ++ ", " ++ inspectFields (f :: fs)
termination_by structural l => l

end

/-- One character of a JSON string literal: quote, backslash and newline
are escaped; escaping of other control characters is not modelled (no
claim inspects such a string). -/
def jsonEscapeChar (c : Char) : String :=
  if c = '\\' then "\\\\"
  else if c = '\"' then "\\\""
  else if c = '\n' then "\\n"
  else c.toString

/-- JSON string literal rendering. -/
def jsonQuote (s : String) : String :=
  "\"" ++ String.join (s.toList.map jsonEscapeChar) ++ "\""

mutual

/-- `JSON.stringify(v)` rendered to text.  Returns `Except.error ()` when
serialization throws (a `circular` value anywhere in serialized position)
and `Except.ok none` when the value serializes to nothing (an `undefined`
or function in property position — the property is dropped; in array
position the caller substitutes `null`).  A `Date` serializes via its
`toJSON`/`toISOString`; an `Error` has no enumerable own properties and
serializes to `\x7b\x7d`. -/
def jsonTextVal : JsVal → Except Unit (Option String)
  | .undefined => .ok none
  | .func _ => .ok none
  | .circular => .error ()
  | .null => .ok (some "null")
  | .bool b => .ok (some (if b then "true" else "false"))
  | .num n => .ok (some (toString n))
  | .str s => .ok (some (jsonQuote s))
  | .date ms => .ok (some (jsonQuote (dateToISO ms)))
  | .error _ _ => .ok (some "\x7b\x7d")
  | .arr xs =>
      match jsonTextArr xs with
      | .ok parts => .ok (some ("[" ++ String.intercalate "," parts ++ "]"))
      | .error e => .error e
  | .obj fs =>
      match jsonTextFields fs with
      | .ok parts => .ok (some ("\x7b" ++ String.intercalate "," parts ++ "\x7d"))
      | .error e => .error e
termination_by structural v => v

def jsonTextArr : List JsVal → Except Unit (List String)
  | [] => .ok []
  | x :: xs =>
      match jsonTextVal x, jsonTextArr xs with
      | .ok t, .ok rest => .ok ((t.getD "null") :: rest)
      | .error e, _ => .error e
      | _, .error e => .error e
termination_by structural l => l

def jsonTextFields : List (String × JsVal) → Except Unit (List String)
  | [] => .ok []
  | (k, v) :: fs =>
      match jsonTextVal v, jsonTextFields fs with
      | .ok none, .ok rest => .ok rest
      | .ok (some t), .ok rest => .ok ((jsonQuote k ++ ":" ++ t) :: rest)
      | .error e, _ => .error e
      | _, .error e => .error e
termination_by structural l => l

end

/-- `JSON.stringify` applied to the formatter's top-level log object. -/
def jsonStringifyTop (fields : Ctx) : Except Unit String :=
  match jsonTextFields fields with
  | .ok parts => .ok ("\x7b" ++ String.intercalate "," parts ++ "\x7d")
  | .error e => .error e

mutual

/-- The `safe-json-stringify` package: identical to `JSON.stringify`
except that it never throws — a circular reference is replaced by the
string `"[Circular]"` instead of raising. -/
def safeTextVal : JsVal → Option String
  | .undefined => none
  | .func _ => none
  | .circular => some (jsonQuote "[Circular]")
  | .null => some "null"
  | .bool b => some (if b then "true" else "false")
  | .num n => some (toString n)
  | .str s => some (jsonQuote s)
  | .date ms => some (jsonQuote (dateToISO ms))
  | .error _ _ => some "\x7b\x7d"
  | .arr xs => some ("[" ++ String.intercalate "," (safeTextArr xs) ++ "]")
  | .obj fs => some ("\x7b" ++ String.intercalate "," (safeTextFields fs) ++ "\x7d")
termination_by structural v => v

def safeTextArr : List JsVal → List String
  | [] => []
  | x :: xs => ((safeTextVal x).getD "null") :: safeTextArr xs
termination_by structural l => l

def safeTextFields : List (String × JsVal) → List String
  | [] => []
  | (k, v) :: fs =>
      match safeTextVal v with
      | none => safeTextFields fs
      | some t => (jsonQuote k ++ ":" ++ t) :: safeTextFields fs
termination_by structural l => l

end

/-- The lossy-but-safe fallback encoder applied to the top-level log
object (`safeStringify(obj)` in formatJsonTrace.stringify). -/
def safeStringify (fields : Ctx) : String :=
  "\x7b" ++ String.intercalate "," (safeTextFields fields) ++ "\x7d"

/-- Property values that `JSON.stringify` drops from an object
(`undefined` and functions). -/
def droppedProp : JsVal → Bool
  | .undefined => true
  | .func _ => true
  | _ => false

mutual

/-- Semantic model of decoding the structured formatter's output:
`JSON.parse` composed with the stringify-with-fallback of
`formatJsonTrace.stringify`.  On values free of circular references this
is `JSON.parse ∘ JSON.stringify`; the safe fallback differs only in
replacing each circular leaf with the string `"[Circular]"` — which is
exactly what this function does, so it describes the decoded value on
both paths. -/
def serValSafe : JsVal → JsVal
  | .undefined => .null
  | .func _ => .null
  | .circular => .str "[Circular]"
  | .null => .null
  | .bool b => .bool b
  | .num n => .num n
  | .str s => .str s
  | .date ms => .str (dateToISO ms)
  | .error _ _ => .obj []
  | .arr xs => .arr (serArrSafe xs)
  | .obj fs => .obj (serFieldsSafe fs)
termination_by structural v => v

def serArrSafe : List JsVal → List JsVal
  | [] => []
  | x :: xs => serValSafe x :: serArrSafe xs
termination_by structural l => l

def serFieldsSafe : List (String × JsVal) → List (String × JsVal)
  | [] => []
  | (k, v) :: fs =>
      if droppedProp v then serFieldsSafe fs
      else (k, serValSafe v) :: serFieldsSafe fs
termination_by structural l => l

end

/-- Rendering of one `util.format` conversion specifier.  `%s` uses
string coercion, `%d`/`%i`/`%f` numeric coercion, `%j` `JSON.stringify`
(with `util`'s own `[Circular]` fallback), `%o`/`%O` inspection. -/
def specRender (c : Char) (v : JsVal) : String :=
  if c = 's' then jsToString v
  else if c = 'd' || c = 'i' || c = 'f' then
    match v with
    | .num n => toString n
    | .bool b => if b then "1" else "0"
    | _ => "NaN"
  else if c = 'j' then
    match jsonTextVal v with
    | .ok (some s) => s
    | .ok none => "undefined"
    | .error _ => "[Circular]"
  else jsInspect v

/-- The conversion characters `util.format` recognizes after `%`. -/
def specChars : List Char := ['s', 'd', 'i', 'f', 'j', 'o', 'O']

/-- The `util.format` interpolation scan over the format string:
`%%` is a literal percent, a recognized specifier consumes the next
argument (or stays as literal text when the arguments are exhausted), an
unrecognized `%x` is left verbatim without consuming.  Returns the
interpolated text and the unconsumed arguments. -/
def interpolate : List Char → List JsVal → String × List JsVal
  | [], args => ("", args)
  | c :: rest, args =>
      if c = '%' then
        match rest with
        | [] => ("%", args)
        | c2 :: rest2 =>
            if c2 = '%' then
              let r := interpolate rest2 args
              ("%" ++ r.1, r.2)
            else if specChars.contains c2 then
              match args with
              | [] =>
                  let r := interpolate rest2 []
                  ("%" ++ c2.toString ++ r.1, r.2)
              | v :: vs =>
                  let r := interpolate rest2 vs
                  (specRender c2 v ++ r.1, r.2)
            else
              let r := interpolate rest2 args
              ("%" ++ c2.toString ++ r.1, r.2)
      else
        let r := interpolate rest args
        (c.toString ++ r.1, r.2)

/-- Extra (unconsumed) `util.format` arguments are appended
space-separated; strings are appended verbatim, everything else is
inspected. -/
def appendExtras (base : String) (extras : List JsVal) : String :=
  extras.foldl
    (fun acc v =>
      acc ++ " " ++ (match v with
        | .str s => s
        | v => jsInspect v))
    base

/-- `util.format.apply(global, first :: rest)`: when the first argument
is a string it acts as the format string, otherwise every argument is
inspected and the results joined with spaces. -/
def utilFormat (first : JsVal) (rest : List JsVal) : String :=
  match first with
  | .str fmt =>
      let r := interpolate fmt.toList rest
      appendExtras r.1 r.2
  | v => appendExtras (jsInspect v) rest

/-- Syntactic test used to state facts about format strings that contain
no interpolation directives at all. -/
def hasPercentChars : List Char → Bool
  | [] => false
  | c :: rest => if c = '%' then true else hasPercentChars rest

/-- A string entirely free of `%` characters (hence untouched by
`util.format` interpolation). -/
def hasPercent (s : String) : Bool := hasPercentChars s.toList

/-- The five severities, in gating order (src/lib/logops.js line 19). -/
def levels : List String := ["DEBUG", "INFO", "WARN", "ERROR", "FATAL"]

/-- Helper for `Array.prototype.indexOf`: position of the first match, or
`-1` when the element does not occur. -/
def jsIndexOfAux (l : List String) (s : String) (i : Int) : Int :=
  match l with
  | [] => -1
  | x :: xs => if x = s then i else jsIndexOfAux xs s (i + 1)

/-- `l.indexOf(s)` with the JS convention of returning `-1` on a miss. -/
def jsIndexOf (l : List String) (s : String) : Int := jsIndexOfAux l s 0

/-- `arguments[i]` — out-of-range access yields `undefined`. -/
def argAt (arguments : List JsVal) (i : Nat) : JsVal :=
  (arguments.get? i).getD .undefined

/-- The three argument shapes distinguished by `logWrap`'s if/else chain
(src/lib/logops.js lines 49-75), tested in source order: a leading
`Error`, then `arguments[0] == null || (typeof arguments[0] !== 'object'
&& arguments[0] !== null) || Array.isArray(arguments[0])`, else a
leading per-call context object. -/
inductive CallShape where
  | errorLed : CallShape
  | messageLed : CallShape
  | contextLed : CallShape
deriving DecidableEq

/-- Classification of a level call's `arguments`, transcribing
`logWrap`'s branch conditions verbatim. -/
def classify (arguments : List JsVal) : CallShape :=
  if isErrorV (argAt arguments 0) then .errorLed
  else if jsIsNullish (argAt arguments 0) ||
      (!typeofIsObject (argAt arguments 0) &&
        !(match argAt arguments 0 with | .null => true | _ => false)) ||
      isArrayV (argAt arguments 0) then .messageLed
  else .contextLed

/-- Enumerable own properties contributed by `arguments[0]` when it is
merged as a per-call context: the fields of a plain object; a `Date` (or
any other non-plain object reaching this branch) has no enumerable own
properties, so `for..in` sees nothing. -/
def ctxFieldsOf : JsVal → Ctx
  | .obj fs => fs
  | _ => []

/-- The canonical tuple `logWrap` passes to the formatter: per-call
context, message, remaining args, and the optional cause error. -/
structure Resolved where
  context : Ctx
  message : JsVal
  args : List JsVal
  err : Option JsErr

/-- The body of `logWrap`'s returned `log()` closure (src/lib/logops.js
lines 49-75), with the ambient context (`API.getContext()`'s result)
passed in explicitly.  First branch: `arguments[0] instanceof Error`;
second: nullish / non-object / array first argument becomes the message;
third: the first argument is a per-call context merged over the ambient
one, the second argument is the message. -/
def resolveCall (ambient : Ctx) (arguments : List JsVal) : Resolved :=
  match classify arguments with
  | .errorLed =>
      let e : JsErr :=
        match argAt arguments 0 with
        | .error n m => ⟨n, m⟩
        | _ => ⟨"", ""⟩
      if (arguments.drop 1).isEmpty then
        { context := ambient
          message := .str (e.name ++ ": " ++ e.message)
          args := []
          err := some e }
      else
        { context := ambient
          message := argAt arguments 1
          args := arguments.drop 2
          err := some e }
  | .messageLed =>
      { context := ambient
        message := argAt arguments 0
        args := arguments.drop 1
        err := none }
  | .contextLed =>
      { context := merge ambient (ctxFieldsOf (argAt arguments 0))
        message := argAt arguments 1
        args := arguments.drop 2
        err := none }

/-- Severities that trigger full stack traces
(`formatters.stacktracesWith`, default value). -/
def stacktracesWith : List String := ["ERROR", "FATAL"]

/-- `serr(err).toObject(printStack)` for an embedded error: a plain
object carrying the error's message and name.  Embedded errors carry no
stack, and `serr` omits missing frames gracefully, so no `stack` field is
produced; no claim inspects this object beyond its presence. -/
def serrToObject (e : JsErr) (printStack : Bool) : JsVal :=
  let _ := printStack
  .obj [("message", .str e.message), ("name", .str e.name)]

/-- `serr(err).toString(printStack)` for an embedded error: the summary
line `Name: message`.  Embedded errors have no stack and no cause chain,
so the trace part is empty regardless of `printStack` (the graceful
degradation `serr` guarantees for stackless errors). -/
def serrToString (e : JsErr) (printStack : Bool) : String :=
  let _ := printStack
  e.name ++ ": " ++ e.message

/-- `context.key || notAvailable` for the fixed delimited-format fields. -/
def fieldOrNA (o : Option JsVal) (na : String) : JsVal :=
  match o with
  | some v => if jsFalsy v then .str na else v
  | none => .str na

/-- Construction of the delimited formatter's `str` local
(src/lib/formatters.js lines 139-164): the `recontext` object with fixed
leading fields `time`, `lvl`, `corr`, `trans`, `op`, then every
non-function context entry (falsy values replaced by the not-available
placeholder), then `msg` (a `Date` or `Error` message is pre-rendered
with `util.format`, anything else is left raw and string-coerced by the
`key + '=' + value` concatenation), joined with `" | "`.  The timestamp
`(new Date()).toISOString()` and the mutable module variable
`notAvailable` enter as the `now` and `na` parameters. -/
def formatTraceBase (now na : String) (level : String) (context : Ctx)
    (message : JsVal) : String :=
  let recontext0 : Ctx :=
    [("time", .str now),
     ("lvl", .str level),
     ("corr", fieldOrNA (lookupK "corr" context) na),
     ("trans", fieldOrNA (lookupK "trans" context) na),
     ("op", fieldOrNA (lookupK "op" context) na)]
  let recontext :=
    context.foldl
      (fun rc kv =>
        match kv.2 with
        | .func _ => rc
        | v => setField rc kv.1 (if jsFalsy v then .str na else v))
      recontext0
  let recontext2 :=
    match message with
    | .date ms => setField recontext "msg" (.str (utilFormat (.date ms) []))
    | .error n m => setField recontext "msg" (.str (utilFormat (.error n m) []))
    | v => setField recontext "msg" v
  String.intercalate " | " (recontext2.map (fun kv => kv.1 ++ "=" ++ jsToString kv.2))

/-- Strict equality `message !== '' + err` is only satisfiable when
`message` is the very string `'' + err` coerces to. -/
def strictEqToStr (v : JsVal) (s : String) : Bool :=
  match v with
  | .str t => t = s
  | _ => false

/-- The delimited (pipe) formatter `formatTrace` (src/lib/formatters.js
lines 137-172): builds the `key=value` line, unshifts it as the format
string in front of the remaining args, pushes the cause error unless the
message already strictly equals its rendering, and hands everything to
`util.format` (whole-line interpolation). -/
def formatTrace (now na : String) (level : String) (context : Ctx)
    (message : JsVal) (args : List JsVal) (err : Option JsErr) : String :=
  let base := formatTraceBase now na level context message
  let errExtra : List JsVal :=
    match err with
    | some e => if strictEqToStr message (errToStr e) then [] else [.error e.name e.message]
    | none => []
  utilFormat (.str base) (args ++ errExtra)

/-- The colored fixed-width level token of the dev formatter.  `chalk`
styling is modelled as the identity (the spec treats ANSI styling as an
opaque capability and `chalk` degrades to the identity without color
support); INFO and WARN are padded to five characters.  The `switch` has
no default, so an unknown level leaves the `str` variable `undefined`,
which the subsequent `+=` coerces to the text `undefined`. -/
def levelToken (level : String) : String :=
  if level = "DEBUG" then "DEBUG"
  else if level = "INFO" then "INFO "
  else if level = "WARN" then "WARN "
  else if level = "ERROR" then "ERROR"
  else if level = "FATAL" then "FATAL"
  else "undefined"

/-- Context keys omitted from the dev formatter's trailing inspection
(`formatDevTrace.omit`, empty by default). -/
def formatDevTraceOmit : List String := []

/-- Character scan for the dev formatter's re-indentation
(`str.replace(new RegExp('\r?\n','g'), '\n      ')`): each CRLF or LF
becomes a newline followed by six spaces. -/
def padNewlinesChars : List Char → List Char
  | [] => []
  | '\r' :: '\n' :: rest =>
      '\n' :: ' ' :: ' ' :: ' ' :: ' ' :: ' ' :: ' ' :: padNewlinesChars rest
  | '\n' :: rest =>
      '\n' :: ' ' :: ' ' :: ' ' :: ' ' :: ' ' :: ' ' :: padNewlinesChars rest
  | c :: rest => c :: padNewlinesChars rest

/-- Re-indentation at the end of the dev formatter: every (CR)LF is
replaced so continuation lines align under the message start. -/
def padNewlines (s : String) : String :=
  String.mk (padNewlinesChars s.toList)

/-- The human (dev) formatter `formatDevTrace` (src/lib/formatters.js
lines 67-106) with `chalk` modelled as identity: level token, then the
printf-interpolated message; when the interpolated message is exactly
`err.name + ': ' + err.message` the remainder of the serialized error is
appended in place (empty here, since embedded errors are stackless),
otherwise a present cause is serialized on a new line; non-omitted
context is inspected and appended when non-empty; finally newlines are
padded. -/
def formatDevTrace (level : String) (context : Ctx) (message : JsVal)
    (args : List JsVal) (err : Option JsErr) : String :=
  let mainMessage := utilFormat message args
  let printStack := stacktracesWith.contains level
  let str0 := levelToken level
  let str1 := str0 ++ " " ++ mainMessage
  let str2 :=
    match err with
    | some e =>
        if mainMessage = e.name ++ ": " ++ e.message then
          str1 ++ (serrToString e printStack).drop mainMessage.length
        else
          str1 ++ "\n" ++ serrToString e printStack
    | none => str1
  let localContext := context.filter (fun kv => !(formatDevTraceOmit.contains kv.1))
  let str3 :=
    if localContext.length ≠ 0 then str2 ++ " " ++ jsInspect (.obj localContext)
    else str2
  padNewlines str3

/-- `formatJsonTrace.toObject` (src/lib/formatters.js lines 197-210):
seed the log object with every context entry, then overwrite/add `time`
(the clock value `new Date()`, passed in as `now`), `lvl`, `err`
(serialized cause, or `undefined` when absent) and `msg` (the
printf-interpolated message). -/
def formatJsonTraceToObject (now : JsVal) (level : String) (context : Ctx)
    (message : JsVal) (args : List JsVal) (err : Option JsErr) : Ctx :=
  setField
    (setField
      (setField
        (setField (assignAll [] context) "time" now)
        "lvl" (.str level))
      "err"
      (match err with
       | some e => serrToObject e (jsIndexOf stacktracesWith level > -1)
       | none => .undefined))
    "msg" (.str (utilFormat message args))

/-- `formatJsonTrace.stringify` (src/lib/formatters.js lines 190-196):
try `JSON.stringify`; on an exception return the lossy-but-safe
`safeStringify` result instead of propagating — as a total Lean function
this formatter can never raise. -/
def formatJsonTraceStringify (fields : Ctx) : String :=
  match jsonStringifyTop fields with
  | .ok s => s
  | .error _ => safeStringify fields

/-- The structured (json) formatter `formatJsonTrace`
(src/lib/formatters.js lines 186-188). -/
def formatJsonTrace (now : JsVal) (level : String) (context : Ctx)
    (message : JsVal) (args : List JsVal) (err : Option JsErr) : String :=
  formatJsonTraceStringify (formatJsonTraceToObject now level context message args err)

/-- A formatter capability, as stored in `API.format`. -/
abbrev FormatterFn :=
  String → Ctx → JsVal → List JsVal → Option JsErr → String

/-- The binding of one public level function: either the real
resolve-format-write pipeline for that severity, or the shared `noop`
(src/lib/logops.js line 24). -/
inductive LevelFn where
  | active (lvl : String) : LevelFn
  | noop : LevelFn

/-- `level.toUpperCase()`: uppercasing character by character (the same
mapping as `String.toUpper`, written over the character list so that it
reduces by computation). -/
def jsToUpper (s : String) : String := String.mk (s.toList.map Char.toUpper)

/-- The per-severity binding computed by `setLevel` (src/lib/logops.js
lines 89-102): the pipeline when
`levels.indexOf(level.toUpperCase()) <= levels.indexOf(logLevel)`, the
noop otherwise.  An unrecognized configured level has index `-1`, which
is below every severity's index. -/
def bindsFor (level : String) : String → LevelFn := fun logLevel =>
  if jsIndexOf levels (jsToUpper level) ≤ jsIndexOf levels logLevel then
    .active logLevel
  else .noop

/-- The mutable bindings of a logger instance (`opts` plus the
dynamically assigned level methods of `API`): current level string,
per-severity bindings, formatter, sink capability (identified by a
token), and the ambient-context getter. -/
structure Logger where
  level : String
  binds : String → LevelFn
  format : FormatterFn
  stream : Nat
  getContext : Unit → Ctx

/-- `setLevel` (src/lib/logops.js lines 89-102): stores the level string
verbatim in `opts.level` and rebuilds every severity binding.  Note there
is no validation and no error path. -/
def setLevel (st : Logger) (level : String) : Logger :=
  { st with level := level, binds := bindsFor level }

/-- `getLevel()` (src/lib/logops.js line 138): the stored `opts.level`. -/
def getLevel (st : Logger) : String := st.level

/-- `setFormat` (src/lib/logops.js lines 213-215). -/
def setFormat (st : Logger) (f : FormatterFn) : Logger :=
  { st with format := f }

/-- `setStream` (src/lib/logops.js lines 121-123). -/
def setStream (st : Logger) (s : Nat) : Logger :=
  { st with stream := s }

/-- `setContextGetter` (src/lib/logops.js lines 179-181). -/
def setContextGetter (st : Logger) (g : Unit → Ctx) : Logger :=
  { st with getContext := g }

/-- The `logops(options)` constructor's tail: assemble the API and run
`setLevel(opts.level)` (src/lib/logops.js line 254). -/
def mkLogger (level : String) (format : FormatterFn) (stream : Nat)
    (getContext : Unit → Ctx) : Logger :=
  setLevel
    { level := level, binds := fun _ => .noop, format := format,
      stream := stream, getContext := getContext }
    level

/-- The trace string one enabled level call produces: resolve the
arguments against the ambient context, then apply the formatter
(src/lib/logops.js lines 77-78). -/
def pipelineTrace (st : Logger) (lvl : String) (arguments : List JsVal) : String :=
  let r := resolveCall (st.getContext ()) arguments
  st.format lvl r.context r.message r.args r.err

/-- Observable effect of invoking one bound level function: the list of
sink writes and the number of formatter invocations.  The noop writes
nothing and evaluates none of the formatting logic; the active binding
formats once and writes the trace plus a newline exactly once. -/
def runLevelFn (fn : LevelFn) (st : Logger) (arguments : List JsVal) :
    List String × Nat :=
  match fn with
  | .noop => ([], 0)
  | .active lvl => ([pipelineTrace st lvl arguments ++ "\n"], 1)

/-- A child logger (src/lib/logops.js lines 238-251): `child(localContext)`
constructs a fresh instance whose level, formatter and stream are the
parent's *values at creation time* (`API.getLevel()`, `API.format`,
`API.stream` are read once, inside the `logops({...})` options object),
while the supplied context is retained for composition.  The child's
`getContext` is the closure `() => merge(API.getContext(), localContext)`,
which re-reads the parent's *current* `getContext` property on every
invocation; the embedding makes that dynamic read explicit by passing the
parent's current state to `childGetContext` below. -/
structure ChildLogger where
  level : String
  binds : String → LevelFn
  format : FormatterFn
  stream : Nat
  localContext : Ctx

/-- `API.child(localContext)`. -/
def child (p : Logger) (localContext : Ctx) : ChildLogger :=
  { level := getLevel p
    binds := bindsFor (getLevel p)
    format := p.format
    stream := p.stream
    localContext := localContext }

/-- The child's ambient context at a log call: the parent's context
getter as it is *now*, merged under the captured local context. -/
def childGetContext (c : ChildLogger) (parentNow : Logger) : Ctx :=
  merge (parentNow.getContext ()) c.localContext

/-- Observable effect of one call on a child logger: which sink it
writes to, what it writes, and how often it formats.  Only the ambient
context is read through the parent's current state. -/
def childRun (c : ChildLogger) (parentNow : Logger) (sev : String)
    (arguments : List JsVal) : Nat × List String × Nat :=
  match c.binds sev with
  | .noop => (c.stream, [], 0)
  | .active lvl =>
      let r := resolveCall (childGetContext c parentNow) arguments
      (c.stream, [c.format lvl r.context r.message r.args r.err ++ "\n"], 1)

/-- A trivial formatter/sink pair used to instantiate concrete logger
states in closed theorems. -/
def constFormat : FormatterFn := fun _ _ _ _ _ => ""

/-- A concrete default-like logger instance (level INFO). -/
def logInit : Logger := mkLogger "INFO" constFormat 0 (fun _ => [])

/-! Association-list lemmas about property lookup, assignment and the
copy loops, under the JS object invariant that keys are unique. -/

theorem keysOf_cons (k : String) (v : JsVal) (t : Ctx) :
    keysOf ((k, v) :: t) = k :: keysOf t := rfl

theorem lookupK_setField_self (l : Ctx) (k : String) (v : JsVal) :
    lookupK k (setField l k v) = some v := by
  induction l with
  | nil => simp [setField, lookupK]
  | cons hd t ih =>
      obtain ⟨k', v'⟩ := hd
      by_cases h : k' = k
      · simp [setField, h, lookupK]
      · simp [setField, h, lookupK, ih]

theorem lookupK_setField_ne (l : Ctx) {k k' : String} (v : JsVal)
    (h : k' ≠ k) : lookupK k (setField l k' v) = lookupK k l := by
  induction l with
  | nil => simp [setField, lookupK, h]
  | cons hd t ih =>
      obtain ⟨k0, v0⟩ := hd
      by_cases h0 : k0 = k'
      · subst h0
        simp [setField, lookupK, h]
      · rw [setField, if_neg h0]
        by_cases h1 : k0 = k
        · rw [lookupK, if_pos h1, lookupK, if_pos h1]
        · rw [lookupK, if_neg h1, lookupK, if_neg h1, ih]

theorem lookupK_eq_none_of_not_mem {l : Ctx} {k : String}
    (h : k ∉ keysOf l) : lookupK k l = none := by
  induction l with
  | nil => rfl
  | cons hd t ih =>
      obtain ⟨k0, v0⟩ := hd
      rw [keysOf_cons] at h
      simp only [List.mem_cons, not_or] at h
      simp [lookupK, Ne.symm h.1, ih h.2]

theorem mem_keysOf_of_lookupK {l : Ctx} {k : String} {v : JsVal}
    (h : lookupK k l = some v) : k ∈ keysOf l := by
  induction l with
  | nil => simp [lookupK] at h
  | cons hd t ih =>
      obtain ⟨k0, v0⟩ := hd
      rw [keysOf_cons]
      by_cases h0 : k0 = k
      · exact h0 ▸ List.mem_cons_self _ _
      · rw [lookupK, if_neg h0] at h
        exact List.mem_cons_of_mem _ (ih h)

theorem mem_keysOf_iff_lookupK {l : Ctx} {k : String} :
    k ∈ keysOf l ↔ lookupK k l ≠ none := by
  induction l with
  | nil => simp [keysOf, lookupK]
  | cons hd t ih =>
      obtain ⟨k0, v0⟩ := hd
      by_cases h0 : k0 = k
      · subst h0
        simp [keysOf_cons, lookupK]
      · simp [keysOf_cons, lookupK, h0, ih, Ne.symm h0]

theorem setField_of_not_mem {l : Ctx} {k : String} (v : JsVal)
    (h : k ∉ keysOf l) : setField l k v = l ++ [(k, v)] := by
  induction l with
  | nil => rfl
  | cons hd t ih =>
      obtain ⟨k0, v0⟩ := hd
      rw [keysOf_cons] at h
      simp only [List.mem_cons, not_or] at h
      simp [setField, Ne.symm h.1, ih h.2]

theorem keysOf_setField (l : Ctx) (k : String) (v : JsVal) :
    keysOf (setField l k v) =
      if k ∈ keysOf l then keysOf l else keysOf l ++ [k] := by
  induction l with
  | nil => simp [setField, keysOf]
  | cons hd t ih =>
      obtain ⟨k0, v0⟩ := hd
      by_cases h0 : k0 = k
      · subst h0
        simp [setField, keysOf_cons]
      · rw [keysOf_cons]
        by_cases hm : k ∈ keysOf t
        · simp [setField, h0, keysOf_cons, ih, hm, Ne.symm h0]
        · simp [setField, h0, keysOf_cons, ih, hm, Ne.symm h0]

theorem nodup_keysOf_setField {l : Ctx} (k : String) (v : JsVal)
    (h : (keysOf l).Nodup) : (keysOf (setField l k v)).Nodup := by
  rw [keysOf_setField]
  by_cases hm : k ∈ keysOf l
  · rw [if_pos hm]
    exact h
  · rw [if_neg hm]
    refine List.Nodup.append h (List.nodup_singleton k) ?_
    intro a ha hak
    rw [List.mem_singleton] at hak
    exact hm (hak ▸ ha)

theorem assignAll_cons (r : Ctx) (k : String) (v : JsVal) (t : Ctx) :
    assignAll r ((k, v) :: t) = assignAll (setField r k v) t := rfl

theorem lookupK_assignAll {src : Ctx} (r : Ctx) (k : String)
    (h : (keysOf src).Nodup) :
    lookupK k (assignAll r src) =
      match lookupK k src with
      | some v => some v
      | none => lookupK k r := by
  induction src generalizing r with
  | nil => simp [assignAll, lookupK]
  | cons hd t ih =>
      obtain ⟨k0, v0⟩ := hd
      rw [keysOf_cons, List.nodup_cons] at h
      rw [assignAll_cons, ih _ h.2]
      by_cases h0 : k0 = k
      · subst h0
        have hn := lookupK_eq_none_of_not_mem h.1
        simp [hn, lookupK, lookupK_setField_self]
      · cases hl : lookupK k t with
        | none => simp [hl, lookupK, h0, lookupK_setField_ne r v0 h0]
        | some w => simp [hl, lookupK, h0]

theorem keysOf_append (r s : Ctx) : keysOf (r ++ s) = keysOf r ++ keysOf s :=
  List.map_append _ _ _

theorem assignAll_of_disjoint {src : Ctx} (r : Ctx)
    (hdisj : ∀ x ∈ keysOf src, x ∉ keysOf r) (h : (keysOf src).Nodup) :
    assignAll r src = r ++ src := by
  induction src generalizing r with
  | nil => simp [assignAll]
  | cons hd0 t ih =>
      obtain ⟨k0, v0⟩ := hd0
      rw [keysOf_cons, List.nodup_cons] at h
      have hk0 : k0 ∉ keysOf r :=
        hdisj k0 (by rw [keysOf_cons]; exact List.mem_cons_self _ _)
      have hrest : ∀ x ∈ keysOf t, x ∉ keysOf (r ++ [(k0, v0)]) := by
        intro x hx hmem
        rw [keysOf_append] at hmem
        rcases List.mem_append.1 hmem with hr | hk
        · exact hdisj x (by rw [keysOf_cons]; exact List.mem_cons_of_mem _ hx) hr
        · have hxk : x = k0 := by simpa [keysOf] using hk
          exact h.1 (hxk ▸ hx)
      rw [assignAll_cons, setField_of_not_mem v0 hk0, ih _ hrest h.2,
        List.append_assoc]
      simp

theorem assignAll_nil {ctx : Ctx} (h : (keysOf ctx).Nodup) :
    assignAll [] ctx = ctx := by
  simpa using assignAll_of_disjoint [] (fun x _ => by simp [keysOf]) h

theorem lookupK_merge {a b : Ctx} (k : String)
    (ha : (keysOf a).Nodup) (hb : (keysOf b).Nodup) :
    lookupK k (merge a b) =
      match lookupK k b with
      | some v => some v
      | none => lookupK k a := by
  rw [merge, lookupK_assignAll _ k hb, assignAll_nil ha]

theorem lookupK_serFields_not_mem {l : Ctx} {k : String}
    (h : k ∉ keysOf l) : lookupK k (serFieldsSafe l) = none := by
  induction l with
  | nil => rfl
  | cons hd t ih =>
      obtain ⟨k0, v0⟩ := hd
      rw [keysOf_cons] at h
      simp only [List.mem_cons, not_or] at h
      by_cases hdrop : droppedProp v0 = true
      · simp [serFieldsSafe, hdrop, ih h.2]
      · simp [serFieldsSafe, hdrop, lookupK, Ne.symm h.1, ih h.2]

theorem lookupK_serFieldsSafe {l : Ctx} (k : String)
    (h : (keysOf l).Nodup) :
    lookupK k (serFieldsSafe l) =
      match lookupK k l with
      | none => none
      | some v => if droppedProp v then none else some (serValSafe v) := by
  induction l with
  | nil => rfl
  | cons hd t ih =>
      obtain ⟨k0, v0⟩ := hd
      rw [keysOf_cons, List.nodup_cons] at h
      by_cases h0 : k0 = k
      · subst h0
        by_cases hdrop : droppedProp v0 = true
        · simp [serFieldsSafe, hdrop, lookupK, lookupK_serFields_not_mem h.1]
        · simp [serFieldsSafe, hdrop, lookupK]
      · by_cases hdrop : droppedProp v0 = true
        · simp [serFieldsSafe, hdrop, lookupK, h0, ih h.2]
        · simp [serFieldsSafe, hdrop, lookupK, h0, ih h.2]

theorem string_mk_toList (s : String) : String.mk s.toList = s := rfl

theorem interpolate_no_percent (cs : List Char) (args : List JsVal)
    (h : hasPercentChars cs = false) :
    interpolate cs args = (String.mk cs, args) := by
  induction cs with
  | nil => rfl
  | cons c rest ih =>
      rw [hasPercentChars] at h
      by_cases hc : c = '%'
      · rw [if_pos hc] at h
        exact absurd h (by simp)
      · rw [if_neg hc] at h
        rw [interpolate.eq_def]
        simp only [if_neg hc, ih h]
        rfl

theorem utilFormat_no_percent (s : String) (args : List JsVal)
    (h : hasPercent s = false) :
    utilFormat (.str s) args = appendExtras s args := by
  rw [utilFormat, interpolate_no_percent _ _ h, string_mk_toList]

theorem jsIndexOfAux_of_not_mem {l : List String} {s : String}
    (h : s ∉ l) : ∀ i, jsIndexOfAux l s i = -1 := by
  induction l with
  | nil => intro i; rfl
  | cons x xs ih =>
      intro i
      simp only [List.mem_cons, not_or] at h
      rw [jsIndexOfAux, if_neg (Ne.symm h.1)]
      exact ih h.2 (i + 1)

theorem jsIndexOf_of_not_mem {l : List String} {s : String}
    (h : s ∉ l) : jsIndexOf l s = -1 :=
  jsIndexOfAux_of_not_mem h 0

theorem jsIndexOfAux_le_of_mem {l : List String} {s : String}
    (h : s ∈ l) : ∀ i : Int, i ≤ jsIndexOfAux l s i := by
  induction l with
  | nil => exact absurd h (List.not_mem_nil s)
  | cons x xs ih =>
      intro i
      rw [jsIndexOfAux]
      by_cases hx : x = s
      · rw [if_pos hx]
      · rw [if_neg hx]
        rcases List.mem_cons.1 h with heq | hmem
        · exact absurd heq.symm hx
        · exact le_trans (by omega) (ih hmem (i + 1))

theorem jsIndexOf_nonneg_of_mem {l : List String} {s : String}
    (h : s ∈ l) : 0 ≤ jsIndexOf l s :=
  jsIndexOfAux_le_of_mem h 0

/-! The claim theorems. -/

/-- C1, counterexample: the spec claims `setLevel` with an unrecognized
name fails with an `InvalidLevel` error surfaced synchronously.  The code
has no validation and no error path at all: `setLevel("VERBOSE")` on a
concrete logger succeeds, stores `"VERBOSE"` verbatim (so `getLevel`
returns it), and — because the unrecognized name indexes to `-1` — binds
every severity, including DEBUG and FATAL, to the active pipeline rather
than rejecting the call. -/
theorem claim_C1_counterexample :
    getLevel (setLevel logInit "VERBOSE") = "VERBOSE" ∧
    (setLevel logInit "VERBOSE").binds "DEBUG" = LevelFn.active "DEBUG" ∧
    (setLevel logInit "VERBOSE").binds "FATAL" = LevelFn.active "FATAL" :=
  ⟨rfl, rfl, rfl⟩

/-- C1, amended: `setLevel(name)` never fails.  Case-insensitive matching
is performed (`name.toUpperCase()` is looked up), but an unrecognized
name is not rejected: it is stored verbatim — so `getLevel()` returns the
last value passed, recognized or not — and, indexing to `-1`, it enables
the active pipeline for every severity. -/
theorem claim_C1_setLevel_no_validation (st : Logger) (name : String) :
    getLevel (setLevel st name) = name ∧
    (jsToUpper name ∉ levels →
      ∀ s ∈ levels, (setLevel st name).binds s = LevelFn.active s) := by
  refine ⟨rfl, ?_⟩
  intro h s hs
  have hidx : jsIndexOf levels (jsToUpper name) = -1 := jsIndexOf_of_not_mem h
  have hs' : (0 : Int) ≤ jsIndexOf levels s := jsIndexOf_nonneg_of_mem hs
  show (if jsIndexOf levels (jsToUpper name) ≤ jsIndexOf levels s then
      LevelFn.active s else LevelFn.noop) = LevelFn.active s
  rw [hidx, if_pos (by omega)]

/-- C1 witness: instantiating the amended theorem at the lowercase
unrecognized name `"verbose"`. -/
theorem claim_C1_witness :
    getLevel (setLevel logInit "verbose") = "verbose" ∧
    (setLevel logInit "verbose").binds "DEBUG" = LevelFn.active "DEBUG" := by
  have h := claim_C1_setLevel_no_validation logInit "verbose"
  exact ⟨h.1, h.2 (by decide) "DEBUG" (by decide)⟩

/-- C2, counterexample: the spec claims a `Date` passed as the only
argument is never classified as a context-led call.  In the code the
`instanceof Error` special case is the only one: a sole `Date` argument
falls through to the context branch (`typeof` calls it an object, it is
not an array and not nullish), so the call *is* context-led — the `Date`
is merged as per-call context (contributing no enumerable keys) and the
message resolves to `undefined`, exactly what the repository's own test
`should nothing but context with a Data as context` expects. -/
theorem claim_C2_counterexample :
    classify [JsVal.date 0] = CallShape.contextLed ∧
    (resolveCall [("a", JsVal.num 1)] [JsVal.date 0]).message = JsVal.undefined ∧
    (resolveCall [("a", JsVal.num 1)] [JsVal.date 0]).context =
      merge [("a", JsVal.num 1)] [] :=
  ⟨rfl, rfl, rfl⟩

/-- C2, amended: for every `Date` value passed as the sole argument, the
call *is* classified as context-led — only `Error` instances are
special-cased by the resolver — and the `Date` is merged as a per-call
context map over the ambient context; since a `Date` has no enumerable
own properties it contributes nothing, and the message resolves to
`undefined` with empty args and no cause. -/
theorem claim_C2_date_is_context (ms : Int) (ambient : Ctx) :
    classify [JsVal.date ms] = CallShape.contextLed ∧
    ctxFieldsOf (JsVal.date ms) = [] ∧
    resolveCall ambient [JsVal.date ms] =
      { context := merge ambient [], message := JsVal.undefined, args := [],
        err := none } :=
  ⟨rfl, rfl, rfl⟩

/-- C3: a level call whose first argument is an `Error` resolves with
`cause` set to that error; with no further arguments the message is
`name + ": " + message` and the args are empty, while with further
arguments the second argument becomes the message and the rest become the
args (the error is context, not the message). -/
theorem claim_C3_error_led_resolution (ambient : Ctx) (n m : String) :
    resolveCall ambient [JsVal.error n m] =
      { context := ambient, message := JsVal.str (n ++ ": " ++ m),
        args := [], err := some ⟨n, m⟩ } ∧
    ∀ (x : JsVal) (rest : List JsVal),
      resolveCall ambient (JsVal.error n m :: x :: rest) =
        { context := ambient, message := x, args := rest,
          err := some ⟨n, m⟩ } :=
  ⟨rfl, fun _ _ => rfl⟩

/-- C4: after `setLevel(L)` with a recognized level, the binding for a
severity `S` is the active resolve-format-write pipeline exactly when
`index(L) ≤ index(S)`, and the noop otherwise; invoking the noop produces
no sink write and zero formatter invocations, while invoking an active
binding produces exactly one formatter invocation and one sink write of
the formatted trace plus a newline. -/
theorem claim_C4_level_gating (st : Logger) (L S : String)
    (hL : jsToUpper L ∈ levels) (hS : S ∈ levels) :
    ((setLevel st L).binds S = LevelFn.active S ↔
      jsIndexOf levels (jsToUpper L) ≤ jsIndexOf levels S) ∧
    (¬ jsIndexOf levels (jsToUpper L) ≤ jsIndexOf levels S →
      (setLevel st L).binds S = LevelFn.noop) ∧
    (∀ (st' : Logger) (arguments : List JsVal),
      runLevelFn LevelFn.noop st' arguments = ([], 0)) ∧
    (∀ (st' : Logger) (arguments : List JsVal),
      runLevelFn (LevelFn.active S) st' arguments =
        ([pipelineTrace st' S arguments ++ "\n"], 1)) := by
  refine ⟨?_, ?_, fun _ _ => rfl, fun _ _ => rfl⟩
  · show (if jsIndexOf levels (jsToUpper L) ≤ jsIndexOf levels S then
        LevelFn.active S else LevelFn.noop) = LevelFn.active S ↔ _
    by_cases hc : jsIndexOf levels (jsToUpper L) ≤ jsIndexOf levels S
    · rw [if_pos hc]
      exact iff_of_true rfl hc
    · rw [if_neg hc]
      exact iff_of_false (fun heq => LevelFn.noConfusion heq) hc
  · intro hc
    show (if jsIndexOf levels (jsToUpper L) ≤ jsIndexOf levels S then
        LevelFn.active S else LevelFn.noop) = LevelFn.noop
    rw [if_neg hc]

/-- C4 witness: at threshold WARN, INFO is a noop and ERROR is active;
the noop produces no write and no formatter call. -/
theorem claim_C4_witness :
    (setLevel logInit "WARN").binds "INFO" = LevelFn.noop ∧
    (setLevel logInit "WARN").binds "ERROR" = LevelFn.active "ERROR" ∧
    runLevelFn LevelFn.noop logInit [] = ([], 0) := by
  have h1 := claim_C4_level_gating logInit "WARN" "INFO" (by decide) (by decide)
  have h2 := claim_C4_level_gating logInit "WARN" "ERROR" (by decide) (by decide)
  exact ⟨h1.2.1 (by decide), h2.1.2 (by decide), h1.2.2.1 logInit []⟩

/-- C5: `merge(a, b)` builds a fresh mapping (both inputs are only read)
that is right-biased: any key of `b` resolves to `b`'s value — in
particular a key present in both the logger-level and the per-call
context resolves to the per-call value — while a key absent from `b`
resolves exactly as in `a` (keys unique to either side are preserved,
keys in neither stay absent). -/
theorem claim_C5_merge_right_biased (a b : Ctx)
    (ha : (keysOf a).Nodup) (hb : (keysOf b).Nodup) (k : String) :
    (∀ v, lookupK k b = some v → lookupK k (merge a b) = some v) ∧
    (lookupK k b = none → lookupK k (merge a b) = lookupK k a) := by
  have h := lookupK_merge k ha hb
  constructor
  · intro v hv
    rw [h, hv]
  · intro hv
    rw [h, hv]

/-- C5 witness: on concrete overlapping contexts the shared key takes the
right value and a left-only key survives. -/
theorem claim_C5_witness :
    lookupK "x" (merge [("x", JsVal.num 1), ("y", JsVal.num 2)]
      [("x", JsVal.num 9), ("z", JsVal.num 3)]) = some (JsVal.num 9) ∧
    lookupK "y" (merge [("x", JsVal.num 1), ("y", JsVal.num 2)]
      [("x", JsVal.num 9), ("z", JsVal.num 3)]) = some (JsVal.num 2) := by
  constructor
  · exact (claim_C5_merge_right_biased _ _ (by decide) (by decide) "x").1 _ rfl
  · have h := (claim_C5_merge_right_biased
      [("x", JsVal.num 1), ("y", JsVal.num 2)]
      [("x", JsVal.num 9), ("z", JsVal.num 3)]
      (by decide) (by decide) "y").2 rfl
    rw [h]
    rfl

/-- C6: decoding the structured formatter's output (the round trip
through `JSON.stringify`-with-fallback and `JSON.parse`, modelled by
`serFieldsSafe`) always yields an object whose `msg` field is the
printf-interpolation of the message with its args, and which has an
`err` field precisely when a cause error was supplied (the
`err && serializeErr(err)` value is `undefined` without a cause, and
`JSON` drops `undefined`-valued properties). -/
theorem claim_C6_json_roundtrip (now : JsVal) (level : String)
    (context : Ctx) (message : JsVal) (args : List JsVal)
    (err : Option JsErr) (h : (keysOf context).Nodup) :
    lookupK "msg"
      (serFieldsSafe (formatJsonTraceToObject now level context message args err)) =
      some (JsVal.str (utilFormat message args)) ∧
    ("err" ∈ keysOf
      (serFieldsSafe (formatJsonTraceToObject now level context message args err)) ↔
      err.isSome) := by
  have h0 : assignAll [] context = context := assignAll_nil h
  have hnodup : (keysOf (formatJsonTraceToObject now level context message args err)).Nodup := by
    unfold formatJsonTraceToObject
    rw [h0]
    exact nodup_keysOf_setField _ _ (nodup_keysOf_setField _ _
      (nodup_keysOf_setField _ _ (nodup_keysOf_setField _ _ h)))
  have hmsg : lookupK "msg" (formatJsonTraceToObject now level context message args err) =
      some (JsVal.str (utilFormat message args)) := by
    unfold formatJsonTraceToObject
    exact lookupK_setField_self _ _ _
  constructor
  · rw [lookupK_serFieldsSafe _ hnodup, hmsg]
    rfl
  · rw [mem_keysOf_iff_lookupK, lookupK_serFieldsSafe _ hnodup]
    cases err with
    | none =>
        have herr : lookupK "err"
            (formatJsonTraceToObject now level context message args none) =
            some JsVal.undefined := by
          unfold formatJsonTraceToObject
          rw [lookupK_setField_ne _ _ (by decide : "msg" ≠ "err")]
          exact lookupK_setField_self _ _ _
        rw [herr]
        simp [droppedProp]
    | some e =>
        have herr : lookupK "err"
            (formatJsonTraceToObject now level context message args (some e)) =
            some (serrToObject e (jsIndexOf stacktracesWith level > -1)) := by
          unfold formatJsonTraceToObject
          rw [lookupK_setField_ne _ _ (by decide : "msg" ≠ "err")]
          exact lookupK_setField_self _ _ _
        rw [herr]
        simp [droppedProp, serrToObject]

/-- C6 witness: with a one-entry context, `msg` decodes to the
interpolated message, `err` is present with a cause and absent without. -/
theorem claim_C6_witness :
    lookupK "msg" (serFieldsSafe (formatJsonTraceToObject (JsVal.date 0)
      "INFO" [("a", JsVal.num 1)] (JsVal.str "hi %s") [JsVal.str "there"] none)) =
      some (JsVal.str "hi there") ∧
    "err" ∈ keysOf (serFieldsSafe (formatJsonTraceToObject (JsVal.date 0)
      "ERROR" [("a", JsVal.num 1)] (JsVal.str "boom") [] (some ⟨"Error", "foo"⟩))) ∧
    "err" ∉ keysOf (serFieldsSafe (formatJsonTraceToObject (JsVal.date 0)
      "INFO" [("a", JsVal.num 1)] (JsVal.str "x") [] none)) := by
  refine ⟨?_, ?_, ?_⟩
  · have h := (claim_C6_json_roundtrip (JsVal.date 0) "INFO" [("a", JsVal.num 1)]
      (JsVal.str "hi %s") [JsVal.str "there"] none (by decide)).1
    have hval : utilFormat (JsVal.str "hi %s") [JsVal.str "there"] = "hi there" := by
      decide
    rw [h, hval]
  · exact (claim_C6_json_roundtrip (JsVal.date 0) "ERROR" [("a", JsVal.num 1)]
      (JsVal.str "boom") [] (some ⟨"Error", "foo"⟩) (by decide)).2.mpr rfl
  · intro hmem
    have h := (claim_C6_json_roundtrip (JsVal.date 0) "INFO" [("a", JsVal.num 1)]
      (JsVal.str "x") [] none (by decide)).2.mp hmem
    simp at h

/-- C7: the structured formatter never raises (it is a total function in
this embedding); when the primary `JSON.stringify` encoding of the log
object fails — the `Except.error` case, triggered by a circular
structure — the formatter returns the lossy-but-safe `safeStringify`
encoding of the same object, which replaces unencodable leaves instead of
propagating the exception. -/
theorem claim_C7_json_never_raises (now : JsVal) (level : String)
    (context : Ctx) (message : JsVal) (args : List JsVal)
    (err : Option JsErr)
    (h : jsonStringifyTop
      (formatJsonTraceToObject now level context message args err) =
      Except.error ()) :
    formatJsonTrace now level context message args err =
      safeStringify (formatJsonTraceToObject now level context message args err) := by
  rw [formatJsonTrace, formatJsonTraceStringify, h]

/-- C7 witness: a circular context value makes the primary encoder throw,
and the formatter returns the safe fallback encoding. -/
theorem claim_C7_witness :
    formatJsonTrace (JsVal.date 0) "INFO" [("x", JsVal.circular)]
      (JsVal.str "hi") [] none =
    safeStringify (formatJsonTraceToObject (JsVal.date 0) "INFO"
      [("x", JsVal.circular)] (JsVal.str "hi") [] none) :=
  claim_C7_json_never_raises (JsVal.date 0) "INFO" [("x", JsVal.circular)]
    (JsVal.str "hi") [] none rfl

/-- C8: a level call with zero arguments resolves to
`message = undefined` with empty args, and that message renders literally
as the string `undefined` in every formatter: `util.format` (used by the
dev and json formatters) renders it as `"undefined"`, the delimited
formatter at the epoch clock with empty context produces exactly the
`time/lvl/corr/trans/op` prefix followed by `msg=undefined`, the dev
formatter yields `INFO  undefined`, and the json formatter's decoded
`msg` field is the string `"undefined"`. -/
theorem claim_C8_zero_args_undefined (ambient : Ctx) (now : JsVal) :
    (resolveCall ambient []).message = JsVal.undefined ∧
    (resolveCall ambient []).args = [] ∧
    utilFormat JsVal.undefined [] = "undefined" ∧
    formatTrace "1970-01-01T00:00:00.000Z" "n/a" "INFO" [] JsVal.undefined [] none =
      "time=1970-01-01T00:00:00.000Z | lvl=INFO | corr=n/a | trans=n/a | op=n/a | msg=undefined" ∧
    formatDevTrace "INFO" [] JsVal.undefined [] none = "INFO  undefined" ∧
    lookupK "msg" (formatJsonTraceToObject now "INFO" [] JsVal.undefined [] none) =
      some (JsVal.str "undefined") := by
  refine ⟨rfl, rfl, rfl, by decide, by decide, ?_⟩
  have hval : utilFormat JsVal.undefined [] = "undefined" := rfl
  unfold formatJsonTraceToObject
  rw [lookupK_setField_self, hval]

/-- C9: in the delimited formatter a supplied cause error is appended as
an extra trailing (inspected) value exactly when the message is not
already the string the error renders to (`message !== '' + err`); in
particular the resolver's error-only message `Name: message` suppresses
the duplicate, so `info(new Error('foo'))` produces a line whose final
field is `msg=Error: foo` with the error appearing once. -/
theorem claim_C9_pipe_err_dedup (now na level : String) (ctx : Ctx)
    (m : String) (e : JsErr)
    (h : hasPercent (formatTraceBase now na level ctx (JsVal.str m)) = false) :
    formatTrace now na level ctx (JsVal.str m) [] (some e) =
      (if m = errToStr e
       then formatTraceBase now na level ctx (JsVal.str m)
       else formatTraceBase now na level ctx (JsVal.str m) ++ " " ++
         ("[" ++ errToStr e ++ "]")) ∧
    (let r := resolveCall [] [JsVal.error "Error" "foo"]
     formatTrace "1970-01-01T00:00:00.000Z" "n/a" "INFO"
       r.context r.message r.args r.err =
       "time=1970-01-01T00:00:00.000Z | lvl=INFO | corr=n/a | trans=n/a | op=n/a | msg=Error: foo") := by
  constructor
  · rw [formatTrace]
    by_cases hm : m = errToStr e
    · rw [if_pos hm]
      have hstrict : strictEqToStr (JsVal.str m) (errToStr e) = true := by
        simp [strictEqToStr, hm]
      rw [hstrict]
      simp only [List.append_nil, if_true]
      rw [utilFormat_no_percent _ _ h]
      rfl
    · rw [if_neg hm]
      have hstrict : strictEqToStr (JsVal.str m) (errToStr e) = false := by
        simp [strictEqToStr, hm]
      rw [hstrict]
      simp only [List.nil_append, if_false]
      rw [utilFormat_no_percent _ _ h]
      rfl
  · decide

/-- C9 witness: the concrete `info(new Error('foo'))` line, obtained from
the general theorem with the no-percent hypothesis discharged by
computation. -/
theorem claim_C9_witness :
    formatTrace "1970-01-01T00:00:00.000Z" "n/a" "INFO" []
      (JsVal.str "Error: foo") [] (some ⟨"Error", "foo"⟩) =
      "time=1970-01-01T00:00:00.000Z | lvl=INFO | corr=n/a | trans=n/a | op=n/a | msg=Error: foo" := by
  have h := (claim_C9_pipe_err_dedup "1970-01-01T00:00:00.000Z" "n/a" "INFO" []
    "Error: foo" ⟨"Error", "foo"⟩ (by decide)).1
  rw [h, if_pos (by decide)]
  decide

/-- C10: `child(c)` captures the parent's level, formatter and sink *by
value* at creation time — afterwards `setLevel`, `setFormat` and
`setStream` on the parent leave the child's observable behaviour
(stream identity, writes, formatter invocations) unchanged — whereas the
child's context provider re-reads the parent's *current* context getter
on every call: after `setContextGetter(g)` on the parent the child's
ambient context is `merge(g(), c)`, with the child's own context winning
on key collisions. -/
theorem claim_C10_child_capture (p : Logger) (ctx : Ctx) :
    ((child p ctx).level = getLevel p ∧ (child p ctx).format = p.format ∧
      (child p ctx).stream = p.stream) ∧
    (∀ (l : String) (f : FormatterFn) (s : Nat) (sev : String)
        (arguments : List JsVal),
      childRun (child p ctx) (setLevel p l) sev arguments =
        childRun (child p ctx) p sev arguments ∧
      childRun (child p ctx) (setFormat p f) sev arguments =
        childRun (child p ctx) p sev arguments ∧
      childRun (child p ctx) (setStream p s) sev arguments =
        childRun (child p ctx) p sev arguments) ∧
    (∀ g : Unit → Ctx,
      childGetContext (child p ctx) (setContextGetter p g) = merge (g ()) ctx) ∧
    (∀ (g : Unit → Ctx) (k : String) (v : JsVal),
      (keysOf (g ())).Nodup → (keysOf ctx).Nodup → lookupK k ctx = some v →
      lookupK k (childGetContext (child p ctx) (setContextGetter p g)) = some v) := by
  refine ⟨⟨rfl, rfl, rfl⟩, fun _ _ _ _ _ => ⟨rfl, rfl, rfl⟩, fun _ => rfl, ?_⟩
  intro g k v hg hc hv
  show lookupK k (merge (g ()) ctx) = some v
  rw [lookupK_merge k hg hc, hv]

/-- C10 witness: a concrete child; a later `setLevel` on the parent does
not change the child's run, and a later `setContextGetter` is visible
through the child's context with the child's entry winning. -/
theorem claim_C10_witness :
    (child logInit [("h", JsVal.str "x")]).level = "INFO" ∧
    childRun (child logInit [("h", JsVal.str "x")]) (setLevel logInit "FATAL")
      "INFO" [] =
      childRun (child logInit [("h", JsVal.str "x")]) logInit "INFO" [] ∧
    lookupK "h" (childGetContext (child logInit [("h", JsVal.str "x")])
      (setContextGetter logInit
        (fun _ => [("h", JsVal.str "p"), ("q", JsVal.num 2)]))) =
      some (JsVal.str "x") := by
  have h := claim_C10_child_capture logInit [("h", JsVal.str "x")]
  exact ⟨h.1.1, (h.2.1 "FATAL" constFormat 0 "INFO" []).1,
    h.2.2.2 (fun _ => [("h", JsVal.str "p"), ("q", JsVal.num 2)]) "h"
      (JsVal.str "x") (by decide) (by decide) rfl⟩

end Logops
